import Mathlib

/-!
Shallow embedding of the core game logic of `DarumaOtoshi2018`
(`src/DarumaOtoshi2018/Main.cpp`, first translation unit, lines 1-330).

Modelling choices:
* C++ `double` values are modelled as exact rationals `ℚ`.
* The random draws made by `Level::addBarrier` (`Random(0.4, 0.6)`,
  `RandomBool()`, `Random(0, 2)`) are modelled as an explicit oracle value
  of type `RandDraw` passed in; one `RandDraw` is consumed per `addBarrier` call.
* `std::deque<Barrier>` becomes `List Barrier`, front = head of the list.
* `barriers.back()` / `barriers.front()` on an empty deque is undefined
  behaviour in C++; in the model that branch leaves the level unchanged
  (it is unreachable: every reachable level has exactly 3 barriers).
-/

/-- `constexpr double holeWidth = 0.25;` -/
def holeWidth : ℚ := 1/4

/-- `constexpr double barrierInterval = 0.5;` -/
def barrierInterval : ℚ := 1/2

/-- `constexpr double initialBarrierHeight = 0.1;` -/
def initialBarrierHeight : ℚ := 1/10

/-- `constexpr double playerPosY = 0.2;` -/
def playerPosY : ℚ := 1/5

/-- `constexpr double sideWallWidth = 0.1;` -/
def sideWallWidth : ℚ := 1/10

/-- `Barrier::Type` — `enum class Type { Left, Right, Slit }`. -/
inductive BarrierType where
  | Left
  | Right
  | Slit
deriving DecidableEq

/-- `Barrier::Type(i)` for `i = Random(0, 2)`: the enum values are
`Left = 0`, `Right = 1`, `Slit = 2`. -/
def BarrierType.ofFin (i : Fin 3) : BarrierType :=
  if i.val = 0 then BarrierType.Left
  else if i.val = 1 then BarrierType.Right
  else BarrierType.Slit

/-- `struct Barrier` with fields `type`, `leftToHole`, `height`, `yPos`. -/
structure Barrier where
  type : BarrierType
  leftToHole : ℚ
  height : ℚ
  yPos : ℚ
deriving DecidableEq

/-- The horizontal part of `Barrier::hit`: the `switch (type)` whose cases
`return false` early when `x` lies in the hole/open region
(`x > leftToHole` for `Left`, `x < leftToHole` for `Right`,
`leftToHole < x && x < leftToHole + holeWidth` for `Slit`). -/
def Barrier.horizontalOpen (b : Barrier) (x : ℚ) : Bool :=
  match b.type with
  | BarrierType.Left => decide (x > b.leftToHole)
  | BarrierType.Right => decide (x < b.leftToHole)
  | BarrierType.Slit => decide (b.leftToHole < x ∧ x < b.leftToHole + holeWidth)

/-- `Barrier::hit(double x)`: return `false` from the switch when `x` is in
the open region, otherwise `return yPos <= playerPosY && playerPosY <= yPos + height;`. -/
def Barrier.hit (b : Barrier) (x : ℚ) : Bool :=
  if b.horizontalOpen x then false
  else decide (b.yPos ≤ playerPosY ∧ playerPosY ≤ b.yPos + b.height)

/-- `Barrier::isVisible()`: `return yPos > -height;`. -/
def Barrier.isVisible (b : Barrier) : Bool :=
  decide (b.yPos > -b.height)

/-- One bundle of random draws consumed by a single `Level::addBarrier` call:
`pos = Random(0.4, 0.6)`, the `RandomBool()` coin, and `Random(0, 2)`. -/
structure RandDraw where
  pos : ℚ
  coin : Bool
  tri : Fin 3
deriving DecidableEq

/-- `class Level`: `std::deque<Barrier> barriers` (front = list head) and
`double mileage`. -/
structure Level where
  barriers : List Barrier
  mileage : ℚ
deriving DecidableEq

/-- The deque initializer of `Level::barriers`:
`{ {Barrier::Type::Slit, 0.5 - holeWidth / 2.0, initialBarrierHeight, 1.0} }`. -/
def initialBarrier : Barrier :=
  { type := BarrierType.Slit
    leftToHole := 1/2 - holeWidth / 2
    height := initialBarrierHeight
    yPos := 1 }

/-- The barrier constructed by the body of `Level::addBarrier` from the back
barrier, the current mileage, and the random draws: the `switch` on
`barriers.back().type` picks `type` and `leftToHole`, then
`factor = std::min(mileage / 100.0, 1.0)`,
`height = initialBarrierHeight + factor * (0.3 - initialBarrierHeight)`,
and `yPos = barriers.back().yPos + barrierInterval`. -/
def genBarrier (back : Barrier) (mileage : ℚ) (r : RandDraw) : Barrier :=
  let tl : BarrierType × ℚ :=
    match back.type with
    | BarrierType.Left =>
        (if r.coin then BarrierType.Right else BarrierType.Slit, r.pos)
    | BarrierType.Right =>
        (if r.coin then BarrierType.Left else BarrierType.Slit, 1 - r.pos)
    | BarrierType.Slit =>
        (BarrierType.ofFin r.tri, r.pos - holeWidth / 2)
  let factor : ℚ := min (mileage / 100) 1
  let height : ℚ := initialBarrierHeight + factor * (3/10 - initialBarrierHeight)
  { type := tl.1, leftToHole := tl.2, height := height, yPos := back.yPos + barrierInterval }

/-- `Level::addBarrier()`: reads `barriers.back()` and `emplace_back`s the
generated barrier. `back()` on an empty deque is UB in C++; the model leaves
such a level unchanged (unreachable: reachable levels are never empty). -/
def Level.addBarrier (lv : Level) (r : RandDraw) : Level :=
  match lv.barriers.getLast? with
  | none => lv
  | some back => { lv with barriers := lv.barriers ++ [genBarrier back lv.mileage r] }

/-- The level whose state is the member initializers of `Level` before the
constructor body runs: the single initial Slit barrier and `mileage(0.0)`. -/
def Level.init0 : Level :=
  { barriers := [initialBarrier], mileage := 0 }

/-- The constructor loop `while (height < 1.0) { addBarrier(); height += barrierInterval; }`,
threaded over the (finite prefix of the) stream of random draws. -/
def buildLoop : Level → ℚ → List RandDraw → Level
  | lv, _, [] => lv
  | lv, height, r :: rest =>
      if height < 1 then buildLoop (lv.addBarrier r) (height + barrierInterval) rest
      else lv

/-- `Level::Level()`: member initializers, then the construction loop starting
from `height = 0.0`. -/
def Level.new (rs : List RandDraw) : Level :=
  buildLoop Level.init0 0 rs

/-- `Level::update(double speedY)`: `mileage += speedY;`, shift every
barrier's `yPos` down by `speedY`, then if the front barrier is no longer
visible, `pop_front()` and `addBarrier()` (consuming the oracle `r`). -/
def Level.update (lv : Level) (speedY : ℚ) (r : RandDraw) : Level :=
  match lv.barriers.map (fun b => { b with yPos := b.yPos - speedY }) with
  | [] => { barriers := [], mileage := lv.mileage + speedY }
  | front :: rest =>
      if front.isVisible then
        { barriers := front :: rest, mileage := lv.mileage + speedY }
      else
        Level.addBarrier { barriers := rest, mileage := lv.mileage + speedY } r

/-- `Level::hit(double posX)`: wall check
`posX < sideWallWidth || posX > 1.0 - sideWallWidth`, then the loop over the
barriers returning `true` on the first barrier hit. -/
def Level.hit (lv : Level) (posX : ℚ) : Bool :=
  if posX < sideWallWidth ∨ posX > 1 - sideWallWidth then true
  else lv.barriers.any (fun b => b.hit posX)

/-- `Level::getMileage()`. -/
def Level.getMileage (lv : Level) : ℚ :=
  lv.mileage

/-- `static_cast<int>(q)` for a C++ `double` value `q`: truncation toward
zero. -/
def truncToInt (q : ℚ) : ℤ :=
  if q < 0 then ⌈q⌉ else ⌊q⌋

/-- `Data::getScore()`: `return static_cast<int>(level.getMileage() * 5.0);`. -/
def getScore (lv : Level) : ℤ :=
  truncToInt (lv.getMileage * 5)

/-- The levels reachable through the public interface: a freshly constructed
`Level()` (the constructor consumes at least two random draws), followed by
any sequence of `update(speedY)` calls. -/
inductive Reachable : Level → Prop
  | init (r1 r2 : RandDraw) (rest : List RandDraw) : Reachable (Level.new (r1 :: r2 :: rest))
  | step {lv : Level} (speedY : ℚ) (r : RandDraw) :
      Reachable lv → Reachable (lv.update speedY r)

/-- The alternation relation between consecutive barriers (front-to-back):
never `Left` immediately followed by `Left`, never `Right` by `Right`. -/
def altOk (a b : Barrier) : Prop :=
  ¬(a.type = BarrierType.Left ∧ b.type = BarrierType.Left) ∧
  ¬(a.type = BarrierType.Right ∧ b.type = BarrierType.Right)

/-- The spacing relation between consecutive barriers: exactly
`barrierInterval` apart in `yPos`. -/
def spacedOk (a b : Barrier) : Prop :=
  b.yPos - a.yPos = barrierInterval

lemma chain_addBarrier {R : Barrier → Barrier → Prop}
    (hgen : ∀ (back : Barrier) (m : ℚ) (r : RandDraw), R back (genBarrier back m r))
    (lv : Level) (r : RandDraw) (hc : List.Chain' R lv.barriers) :
    List.Chain' R ((lv.addBarrier r).barriers) := by
  unfold Level.addBarrier
  cases h : lv.barriers.getLast? with
  | none => exact hc
  | some back =>
      refine List.Chain'.append hc (List.chain'_singleton _) ?_
      intro x hx y hy
      rw [h] at hx
      simp only [Option.mem_def, Option.some.injEq] at hx
      simp only [List.head?_cons, Option.mem_def, Option.some.injEq] at hy
      subst hx; subst hy
      exact hgen back lv.mileage r

lemma chain_update {R : Barrier → Barrier → Prop}
    (hshift : ∀ (s : ℚ) (a b : Barrier), R a b →
      R { a with yPos := a.yPos - s } { b with yPos := b.yPos - s })
    (hgen : ∀ (back : Barrier) (m : ℚ) (r : RandDraw), R back (genBarrier back m r))
    (lv : Level) (s : ℚ) (r : RandDraw) (hc : List.Chain' R lv.barriers) :
    List.Chain' R ((lv.update s r).barriers) := by
  have hmap : List.Chain' R (lv.barriers.map (fun b => { b with yPos := b.yPos - s })) :=
    List.chain'_map_of_chain' _ (fun a b hab => hshift s a b hab) hc
  unfold Level.update
  cases hb : lv.barriers.map (fun b => { b with yPos := b.yPos - s }) with
  | nil => exact List.chain'_nil
  | cons front rest =>
      rw [hb] at hmap
      by_cases hv : front.isVisible
      · simpa [hv] using hmap
      · simp only [hv, Bool.false_eq_true, if_false]
        exact chain_addBarrier hgen _ r hmap.tail

lemma chain_buildLoop {R : Barrier → Barrier → Prop}
    (hgen : ∀ (back : Barrier) (m : ℚ) (r : RandDraw), R back (genBarrier back m r))
    (rs : List RandDraw) (lv : Level) (h : ℚ) (hc : List.Chain' R lv.barriers) :
    List.Chain' R ((buildLoop lv h rs).barriers) := by
  induction rs generalizing lv h with
  | nil => exact hc
  | cons r rest ih =>
      unfold buildLoop
      by_cases hlt : h < 1
      · simp only [hlt, if_true]
        exact ih _ _ (chain_addBarrier hgen _ r hc)
      · simpa [hlt] using hc

lemma genBarrier_altOk (back : Barrier) (m : ℚ) (r : RandDraw) :
    altOk back (genBarrier back m r) := by
  unfold altOk genBarrier
  cases hty : back.type with
  | Left => cases r.coin <;> simp [hty]
  | Right => cases r.coin <;> simp [hty]
  | Slit => simp [hty]

lemma genBarrier_spacedOk (back : Barrier) (m : ℚ) (r : RandDraw) :
    spacedOk back (genBarrier back m r) := by
  simp [spacedOk, genBarrier]

lemma altOk_shift (s : ℚ) (a b : Barrier) (hab : altOk a b) :
    altOk { a with yPos := a.yPos - s } { b with yPos := b.yPos - s } := hab

lemma spacedOk_shift (s : ℚ) (a b : Barrier) (hab : spacedOk a b) :
    spacedOk { a with yPos := a.yPos - s } { b with yPos := b.yPos - s } := by
  unfold spacedOk at hab ⊢
  simp only
  linarith

/-- C1: in every reachable Level, a `Left` barrier is never immediately
followed (front-to-back) by another `Left`, and a `Right` is never
immediately followed by another `Right`. -/
theorem c1_alternation_invariant (lv : Level) (h : Reachable lv) :
    List.Chain' altOk lv.barriers := by
  induction h with
  | init r1 r2 rest =>
      exact chain_buildLoop genBarrier_altOk _ _ _ (List.chain'_singleton _)
  | step s r _ ih =>
      exact chain_update altOk_shift genBarrier_altOk _ s r ih

/-- C4: in every reachable Level, consecutive barriers (front-to-back) are
spaced by exactly `barrierInterval` in `yPos`. -/
theorem c4_spacing_invariant (lv : Level) (h : Reachable lv) :
    List.Chain' spacedOk lv.barriers := by
  induction h with
  | init r1 r2 rest =>
      exact chain_buildLoop genBarrier_spacedOk _ _ _ (List.chain'_singleton _)
  | step s r _ ih =>
      exact chain_update spacedOk_shift genBarrier_spacedOk _ s r ih

lemma addBarrier_mileage (lv : Level) (r : RandDraw) :
    (lv.addBarrier r).mileage = lv.mileage := by
  unfold Level.addBarrier
  cases lv.barriers.getLast? <;> rfl

lemma addBarrier_barriers_head? (lv : Level) (r : RandDraw) :
    ((lv.addBarrier r).barriers).head? = lv.barriers.head? := by
  unfold Level.addBarrier
  cases h : lv.barriers.getLast? with
  | none => rfl
  | some back =>
      cases hb : lv.barriers with
      | nil => rw [hb] at h; simp at h
      | cons a as => simp [hb]

lemma addBarrier_barriers_length (lv : Level) (r : RandDraw) (h : lv.barriers ≠ []) :
    ((lv.addBarrier r).barriers).length = lv.barriers.length + 1 := by
  unfold Level.addBarrier
  cases hg : lv.barriers.getLast? with
  | none => exact absurd (List.getLast?_eq_none_iff.mp hg) h
  | some back => simp

lemma level_new_cons (r1 r2 : RandDraw) (rest : List RandDraw) :
    Level.new (r1 :: r2 :: rest) = (Level.init0.addBarrier r1).addBarrier r2 := by
  cases rest with
  | nil => norm_num [Level.new, buildLoop, barrierInterval]
  | cons r3 rs => norm_num [Level.new, buildLoop, barrierInterval]

/-- C10: every reachable Level contains exactly 3 barriers (the constructor
creates 3, and `update` preserves the count); in particular it is never
empty. -/
theorem c10_barrier_count (lv : Level) (h : Reachable lv) :
    lv.barriers.length = 3 := by
  induction h with
  | init r1 r2 rest =>
      rw [level_new_cons]
      have h1 : Level.init0.barriers ≠ [] := by simp [Level.init0]
      have h2 := addBarrier_barriers_length Level.init0 r1 h1
      have h3 : (Level.init0.addBarrier r1).barriers ≠ [] := by
        intro hnil
        rw [hnil] at h2
        simp [Level.init0] at h2
      rw [addBarrier_barriers_length _ r2 h3, h2]
      simp [Level.init0]
  | step s r _ ih =>
      rename_i lv' hrec
      cases hb : lv'.barriers with
      | nil => rw [hb] at ih; simp at ih
      | cons a as =>
          have has : as.length = 2 := by
            rw [hb] at ih
            simp only [List.length_cons] at ih
            omega
          unfold Level.update
          rw [hb]
          simp only [List.map_cons]
          by_cases hv : Barrier.isVisible { a with yPos := a.yPos - s }
          · simp [hv, has]
          · simp only [hv, Bool.false_eq_true, if_false]
            have hne : (as.map (fun b => { b with yPos := b.yPos - s })).length = 2 := by
              simp [has]
            have : ({ barriers := as.map (fun b => { b with yPos := b.yPos - s }),
                      mileage := lv'.mileage + s } : Level).barriers ≠ [] := by
              intro hnil
              have hnil' : as.map (fun b => { b with yPos := b.yPos - s }) = [] := hnil
              have : as = [] := by simpa using hnil'
              rw [this] at has
              simp at has
            rw [addBarrier_barriers_length _ r this]
            simpa using hne

/-- C7: a freshly constructed `Level()` has mileage 0, at least 2 barriers,
and its front barrier is the initial centered Slit with `yPos = 1`,
`height = 1/10`, `leftToHole = 3/8`. -/
theorem c7_fresh_level (r1 r2 : RandDraw) (rest : List RandDraw) :
    (Level.new (r1 :: r2 :: rest)).mileage = 0 ∧
    2 ≤ (Level.new (r1 :: r2 :: rest)).barriers.length ∧
    (Level.new (r1 :: r2 :: rest)).barriers.head? =
      some { type := BarrierType.Slit, leftToHole := 3/8, height := 1/10, yPos := 1 } := by
  rw [level_new_cons]
  refine ⟨?_, ?_, ?_⟩
  · rw [addBarrier_mileage, addBarrier_mileage]
    rfl
  · have h1 : Level.init0.barriers ≠ [] := by simp [Level.init0]
    have h2 := addBarrier_barriers_length Level.init0 r1 h1
    have h3 : (Level.init0.addBarrier r1).barriers ≠ [] := by
      intro hnil
      rw [hnil] at h2
      simp [Level.init0] at h2
    rw [addBarrier_barriers_length _ r2 h3, h2]
    simp [Level.init0]
  · rw [addBarrier_barriers_head?, addBarrier_barriers_head?]
    norm_num [Level.init0, initialBarrier, holeWidth, initialBarrierHeight]

/-- C2: `Level::hit(posX)` is true iff `posX` is outside the playable band
`[1/10, 9/10]` or some contained barrier reports a hit; in particular any
`posX < 1/10` or `posX > 9/10` hits regardless of the barriers. -/
theorem c2_level_hit (lv : Level) (posX : ℚ) :
    lv.hit posX = true ↔
      posX < 1/10 ∨ posX > 9/10 ∨ ∃ b ∈ lv.barriers, b.hit posX = true := by
  unfold Level.hit
  split_ifs with h
  · norm_num [sideWallWidth] at h
    simp only [true_iff]
    tauto
  · norm_num [sideWallWidth] at h
    obtain ⟨h1, h2⟩ := h
    simp only [List.any_eq_true]
    constructor
    · rintro ⟨b, hb, hh⟩
      exact Or.inr (Or.inr ⟨b, hb, hh⟩)
    · rintro (hc | hc | ⟨b, hb, hh⟩)
      · linarith
      · linarith
      · exact ⟨b, hb, hh⟩

/-- C3: for a Slit barrier, `hit(x)` is false for every `x` in the open hole
`(leftToHole, leftToHole + 1/4)`; for every other `x`, `hit(x)` is true iff
the vertical band overlap `yPos ≤ 1/5 ≤ yPos + height` holds. -/
theorem c3_slit_hit (b : Barrier) (x : ℚ) (hs : b.type = BarrierType.Slit) :
    ((b.leftToHole < x ∧ x < b.leftToHole + 1/4) → b.hit x = false) ∧
    (¬(b.leftToHole < x ∧ x < b.leftToHole + 1/4) →
      (b.hit x = true ↔ b.yPos ≤ 1/5 ∧ 1/5 ≤ b.yPos + b.height)) := by
  obtain ⟨ty, l, ht, y⟩ := b
  change ty = BarrierType.Slit at hs
  subst hs
  constructor
  · intro hx
    obtain ⟨h1, h2⟩ := hx
    have h1' : l < x := h1
    have h2' : x < l + 1/4 := h2
    have hopen : Barrier.horizontalOpen ⟨BarrierType.Slit, l, ht, y⟩ x = true := by
      simp only [Barrier.horizontalOpen, holeWidth, decide_eq_true_eq]
      exact ⟨h1', by linarith⟩
    simp [Barrier.hit, hopen]
  · intro hx
    have hx' : ¬(l < x ∧ x < l + 1/4) := hx
    have hopen : Barrier.horizontalOpen ⟨BarrierType.Slit, l, ht, y⟩ x = false := by
      simp only [Barrier.horizontalOpen, holeWidth, decide_eq_false_iff_not]
      intro hcon
      have := hcon.2
      exact hx' ⟨hcon.1, by linarith⟩
    simp [Barrier.hit, hopen, playerPosY]

/-- C5: the height of a generated barrier is
`1/10 + min (m/100) 1 * (1/5)`: it is `1/10` at mileage `0`, is monotone in
the mileage, and equals exactly `3/10` for every mileage `m ≥ 100`. -/
theorem c5_generated_height (back : Barrier) (m : ℚ) (r : RandDraw) (_hm : 0 ≤ m) :
    (genBarrier back m r).height = 1/10 + min (m/100) 1 * (1/5) ∧
    (m = 0 → (genBarrier back m r).height = 1/10) ∧
    (∀ m' : ℚ, m ≤ m' → (genBarrier back m r).height ≤ (genBarrier back m' r).height) ∧
    (100 ≤ m → (genBarrier back m r).height = 3/10) := by
  have hval : ∀ mm : ℚ, (genBarrier back mm r).height = 1/10 + min (mm/100) 1 * (1/5) := by
    intro mm
    norm_num [genBarrier, initialBarrierHeight]
  refine ⟨hval m, ?_, ?_, ?_⟩
  · intro h0
    rw [hval, h0]
    norm_num
  · intro m' hm'
    rw [hval, hval]
    have hmin : min (m/100) 1 ≤ min (m'/100) 1 := by
      apply min_le_min _ le_rfl
      linarith
    have := mul_le_mul_of_nonneg_right hmin (by norm_num : (0:ℚ) ≤ 1/5)
    linarith
  · intro h100
    rw [hval]
    have : min (m/100) 1 = 1 := min_eq_right (by linarith)
    rw [this]
    norm_num

/-- A fixed sample of random draws used to instantiate witnesses. -/
def sampleDraw : RandDraw :=
  { pos := 1/2, coin := true, tri := 0 }

/-- Witness for C1 at a concrete reachable level. -/
theorem c1_alternation_invariant_witness :
    List.Chain' altOk (Level.new [sampleDraw, sampleDraw]).barriers :=
  c1_alternation_invariant _ (Reachable.init sampleDraw sampleDraw [])

/-- Witness for C4 at a concrete reachable level. -/
theorem c4_spacing_invariant_witness :
    List.Chain' spacedOk (Level.new [sampleDraw, sampleDraw]).barriers :=
  c4_spacing_invariant _ (Reachable.init sampleDraw sampleDraw [])

/-- Witness for C10 at a concrete reachable level. -/
theorem c10_barrier_count_witness :
    (Level.new [sampleDraw, sampleDraw]).barriers.length = 3 :=
  c10_barrier_count _ (Reachable.init sampleDraw sampleDraw [])

/-- Witness for C3: the initial Slit barrier is passable at its hole center. -/
theorem c3_slit_hit_witness : initialBarrier.hit (1/2) = false :=
  (c3_slit_hit initialBarrier (1/2) rfl).1
    (by norm_num [initialBarrier, holeWidth])

/-- Witness for C5: at mileage 200 the generated height is capped at `3/10`. -/
theorem c5_generated_height_witness :
    (genBarrier initialBarrier 200 sampleDraw).height = 3/10 :=
  (c5_generated_height initialBarrier 200 sampleDraw (by norm_num)).2.2.2 (by norm_num)

/-- C6 (amended): on any level whose front barrier (when present) is still
visible, `update(0)` any number of times changes nothing: no `yPos` moves, no
barrier is removed or appended, and the mileage is unchanged. -/
theorem c6_update_zero_fixed (lv : Level) (r : RandDraw)
    (h : ∀ f, lv.barriers.head? = some f → f.isVisible = true) :
    ∀ n : ℕ, (fun l => Level.update l 0 r)^[n] lv = lv := by
  have hfix : Level.update lv 0 r = lv := by
    obtain ⟨bs, m⟩ := lv
    cases bs with
    | nil => simp [Level.update]
    | cons a as =>
        have hv : a.isVisible = true := h a rfl
        have hmap : (a :: as).map (fun b => { b with yPos := b.yPos - 0 }) = a :: as := by
          have hfun : (fun b : Barrier => { b with yPos := b.yPos - 0 }) = fun b => b := by
            funext b
            simp
          rw [hfun]
          simp
        show Level.update ⟨a :: as, m⟩ 0 r = ⟨a :: as, m⟩
        unfold Level.update
        rw [hmap]
        simp [hv]
  intro n
  exact Function.iterate_fixed hfix n

/-- Witness for the amended C6: iterating `update(0)` on the initial level. -/
theorem c6_update_zero_fixed_witness :
    (fun l => Level.update l 0 sampleDraw)^[5] Level.init0 = Level.init0 :=
  c6_update_zero_fixed Level.init0 sampleDraw
    (by
      intro f hf
      simp only [Level.init0, List.head?_cons, Option.some.injEq] at hf
      subst hf
      norm_num [Barrier.isVisible, initialBarrier, initialBarrierHeight])
    5

/-- A reachable level whose front barrier has scrolled out of sight: the
fresh level updated once with `speedY = 2`. -/
def c6Level : Level :=
  (Level.new [sampleDraw, sampleDraw]).update 2 sampleDraw

/-- Counterexample to C6 as stated: `c6Level` is reachable, yet
`update(0)` on it pops the invisible front barrier and appends a new one,
so the zero step is not a no-op on every reachable level. -/
theorem c6_counterexample :
    Reachable c6Level ∧ Level.update c6Level 0 sampleDraw ≠ c6Level := by
  refine ⟨Reachable.step 2 sampleDraw (Reachable.init sampleDraw sampleDraw []), ?_⟩
  have hc : c6Level =
      { barriers := [
          { type := BarrierType.Left, leftToHole := 3/8, height := 1/10, yPos := -(1/2) },
          { type := BarrierType.Right, leftToHole := 1/2, height := 1/10, yPos := 0 },
          { type := BarrierType.Left, leftToHole := 1/2, height := 13/125, yPos := 1/2 }],
        mileage := 2 } := by
    unfold c6Level
    rw [level_new_cons]
    norm_num [Level.update, Level.addBarrier, Level.init0, genBarrier, sampleDraw,
      BarrierType.ofFin, initialBarrier, holeWidth, initialBarrierHeight,
      barrierInterval, Barrier.isVisible, min_def]
  rw [hc]
  intro hcontra
  have hhead := congrArg (fun l : Level => l.barriers.head?) hcontra
  norm_num [Level.update, Level.addBarrier, genBarrier, sampleDraw, BarrierType.ofFin,
    Barrier.isVisible, holeWidth, initialBarrierHeight, barrierInterval, min_def] at hhead

/-- A non-empty open interval `(lo, hi)` inside the playable band
`(sideWallWidth, 1 - sideWallWidth)` on which the barrier's horizontal
solidity test is false (the `switch` of `Barrier::hit` returns early). -/
def passableInterval (b : Barrier) (lo hi : ℚ) : Prop :=
  lo < hi ∧ sideWallWidth ≤ lo ∧ hi ≤ 1 - sideWallWidth ∧
  ∀ x : ℚ, lo < x → x < hi → b.horizontalOpen x = true

/-- C8 as stated: some passable open interval contains a point of the
center band `[2/5 - holeWidth/2, 3/5 + holeWidth/2]`. -/
def passableNearCenter (b : Barrier) : Prop :=
  ∃ lo hi : ℚ, passableInterval b lo hi ∧
    ∃ x : ℚ, lo < x ∧ x < hi ∧ 2/5 - holeWidth/2 ≤ x ∧ x ≤ 3/5 + holeWidth/2

/-- C8 amended: some passable open interval whose closure meets the center
band `[2/5 - holeWidth/2, 3/5 + holeWidth/2]`. -/
def passableTouchingCenter (b : Barrier) : Prop :=
  ∃ lo hi : ℚ, passableInterval b lo hi ∧
    2/5 - holeWidth/2 ≤ hi ∧ lo ≤ 3/5 + holeWidth/2

lemma passable_of_left (b : Barrier) (hty : b.type = BarrierType.Left)
    (hl1 : 11/40 ≤ b.leftToHole) (hl2 : b.leftToHole ≤ 3/5) :
    passableTouchingCenter b := by
  refine ⟨b.leftToHole, 9/10, ⟨?_, ?_, ?_, ?_⟩, ?_, ?_⟩
  · linarith
  · rw [sideWallWidth]; linarith
  · rw [sideWallWidth]; norm_num
  · intro x hx1 _
    simp [Barrier.horizontalOpen, hty]
    exact hx1
  · rw [holeWidth]; norm_num
  · rw [holeWidth]; linarith

lemma passable_of_right (b : Barrier) (hty : b.type = BarrierType.Right)
    (hl1 : 11/40 ≤ b.leftToHole) (hl2 : b.leftToHole ≤ 3/5) :
    passableTouchingCenter b := by
  refine ⟨1/10, b.leftToHole, ⟨?_, ?_, ?_, ?_⟩, ?_, ?_⟩
  · linarith
  · rw [sideWallWidth]
  · rw [sideWallWidth]; linarith
  · intro x _ hx2
    simp [Barrier.horizontalOpen, hty]
    exact hx2
  · rw [holeWidth]; linarith
  · rw [holeWidth]; norm_num

lemma passable_of_slit (b : Barrier) (hty : b.type = BarrierType.Slit)
    (hl1 : 11/40 ≤ b.leftToHole) (hl2 : b.leftToHole ≤ 3/5) :
    passableTouchingCenter b := by
  refine ⟨b.leftToHole, b.leftToHole + 1/4, ⟨?_, ?_, ?_, ?_⟩, ?_, ?_⟩
  · linarith
  · rw [sideWallWidth]; linarith
  · rw [sideWallWidth]; linarith
  · intro x hx1 hx2
    simp [Barrier.horizontalOpen, hty, holeWidth]
    exact ⟨hx1, by linarith⟩
  · rw [holeWidth]; linarith
  · rw [holeWidth]; linarith

/-- C8 (amended): every barrier produced by the generation rule with
`pos ∈ [2/5, 3/5]` has a passable open interval inside the playable band
whose closure meets the center band `[11/40, 29/40]`. -/
theorem c8_generated_passable (back : Barrier) (m : ℚ) (r : RandDraw)
    (h1 : 2/5 ≤ r.pos) (h2 : r.pos ≤ 3/5) :
    passableTouchingCenter (genBarrier back m r) := by
  obtain ⟨pos, coin, tri⟩ := r
  have h1' : (2:ℚ)/5 ≤ pos := h1
  have h2' : pos ≤ (3:ℚ)/5 := h2
  cases hty : back.type with
  | Left =>
      cases coin with
      | true =>
          have hT : (genBarrier back m ⟨pos, true, tri⟩).type = BarrierType.Right := by
            simp [genBarrier, hty]
          have hL : (genBarrier back m ⟨pos, true, tri⟩).leftToHole = pos := by
            simp [genBarrier, hty]
          exact passable_of_right _ hT (by rw [hL]; linarith) (by rw [hL]; linarith)
      | false =>
          have hT : (genBarrier back m ⟨pos, false, tri⟩).type = BarrierType.Slit := by
            simp [genBarrier, hty]
          have hL : (genBarrier back m ⟨pos, false, tri⟩).leftToHole = pos := by
            simp [genBarrier, hty]
          exact passable_of_slit _ hT (by rw [hL]; linarith) (by rw [hL]; linarith)
  | Right =>
      cases coin with
      | true =>
          have hT : (genBarrier back m ⟨pos, true, tri⟩).type = BarrierType.Left := by
            simp [genBarrier, hty]
          have hL : (genBarrier back m ⟨pos, true, tri⟩).leftToHole = 1 - pos := by
            simp [genBarrier, hty]
          exact passable_of_left _ hT (by rw [hL]; linarith) (by rw [hL]; linarith)
      | false =>
          have hT : (genBarrier back m ⟨pos, false, tri⟩).type = BarrierType.Slit := by
            simp [genBarrier, hty]
          have hL : (genBarrier back m ⟨pos, false, tri⟩).leftToHole = 1 - pos := by
            simp [genBarrier, hty]
          exact passable_of_slit _ hT (by rw [hL]; linarith) (by rw [hL]; linarith)
  | Slit =>
      have hL : (genBarrier back m ⟨pos, coin, tri⟩).leftToHole = pos - 1/8 := by
        simp [genBarrier, hty, holeWidth]
        norm_num
      have hT : (genBarrier back m ⟨pos, coin, tri⟩).type = BarrierType.ofFin tri := by
        simp [genBarrier, hty]
      fin_cases tri
      · exact passable_of_left _ (hT.trans (by decide))
          (by rw [hL]; linarith) (by rw [hL]; linarith)
      · exact passable_of_right _ (hT.trans (by decide))
          (by rw [hL]; linarith) (by rw [hL]; linarith)
      · exact passable_of_slit _ (hT.trans (by decide))
          (by rw [hL]; linarith) (by rw [hL]; linarith)

/-- Witness for the amended C8 at a concrete generated barrier. -/
theorem c8_generated_passable_witness :
    passableTouchingCenter (genBarrier initialBarrier 0 sampleDraw) :=
  c8_generated_passable initialBarrier 0 sampleDraw
    (by norm_num [sampleDraw]) (by norm_num [sampleDraw])

/-- The barrier generated after a Slit barrier with `pos = 2/5` (the lower
endpoint of `Random(0.4, 0.6)`) when `Random(0, 2)` picks `Right`: its
`leftToHole` is `2/5 - 1/8 = 11/40`, so its open region `x < 11/40` lies
strictly left of the center band. -/
def c8Barrier : Barrier :=
  genBarrier initialBarrier 0 { pos := 2/5, coin := true, tri := 1 }

/-- Counterexample to C8 as stated: for the generated barrier `c8Barrier`
no passable open interval inside the playable band contains a point of the
center band `[11/40, 29/40]`. -/
theorem c8_counterexample : ¬ passableNearCenter c8Barrier := by
  rintro ⟨lo, hi, ⟨hlh, hlo, hhi, hpass⟩, x, hx1, hx2, hc1, hc2⟩
  have hopen := hpass x hx1 hx2
  have hb : c8Barrier.type = BarrierType.Right ∧ c8Barrier.leftToHole = 11/40 := by
    constructor
    · simp [c8Barrier, genBarrier, initialBarrier, BarrierType.ofFin]
    · simp [c8Barrier, genBarrier, initialBarrier, BarrierType.ofFin, holeWidth]
      norm_num
  rw [Barrier.horizontalOpen, hb.1] at hopen
  simp only [decide_eq_true_eq, hb.2] at hopen
  rw [holeWidth] at hc1
  norm_num at hc1
  linarith

/-- C9 (amended): for every Level with nonnegative mileage, `getScore()`
returns `⌊mileage * 5⌋`; in particular mileage `1` gives score `5` and
mileage `19/100` gives score `0`. -/
theorem c9_score_floor (lv : Level) (h : 0 ≤ lv.mileage) :
    getScore lv = ⌊lv.getMileage * 5⌋ ∧
    (lv.mileage = 1 → getScore lv = 5) ∧
    (lv.mileage = 19/100 → getScore lv = 0) := by
  have h5 : (0:ℚ) ≤ lv.getMileage * 5 := by
    have : lv.getMileage = lv.mileage := rfl
    rw [this]
    positivity
  have hmain : getScore lv = ⌊lv.getMileage * 5⌋ := by
    unfold getScore truncToInt
    rw [if_neg (not_lt.mpr h5)]
  refine ⟨hmain, ?_, ?_⟩
  · intro h1
    rw [hmain]
    show ⌊lv.mileage * 5⌋ = 5
    rw [h1]
    norm_num
  · intro h1
    rw [hmain]
    show ⌊lv.mileage * 5⌋ = 0
    rw [h1]
    rw [show (19:ℚ)/100 * 5 = 19/20 by norm_num]
    rw [Int.floor_eq_zero_iff]
    constructor <;> norm_num
/-- Witness for the amended C9 at mileage `1`. -/
theorem c9_score_floor_witness :
    getScore { barriers := [initialBarrier], mileage := 1 } = 5 :=
  (c9_score_floor { barriers := [initialBarrier], mileage := 1 } (by norm_num)).2.1 rfl

/-- Counterexample to C9 as stated: at the Level state with mileage
`-1/10` (producible by `update(-0.1)`), `static_cast<int>` truncates
`-0.5` toward zero to `0`, while `⌊-0.5⌋ = -1`. -/
theorem c9_counterexample :
    getScore { barriers := [initialBarrier], mileage := -(1/10) } ≠
      ⌊({ barriers := [initialBarrier], mileage := -(1/10) } : Level).getMileage * 5⌋ := by
  have hval : ({ barriers := [initialBarrier], mileage := -(1/10) } : Level).getMileage * 5
      = -(1/2) := by
    show (-(1/10) : ℚ) * 5 = -(1/2)
    norm_num
  unfold getScore truncToInt
  rw [hval, if_pos (by norm_num)]
  rw [show ⌈(-(1/2) : ℚ)⌉ = 0 by
    rw [Int.ceil_eq_zero_iff]
    constructor <;> norm_num]
  rw [show ⌊(-(1/2) : ℚ)⌋ = -1 by
    rw [Int.floor_eq_iff]
    constructor <;> norm_num]
  norm_num
